import Mathlib

set_option maxHeartbeats 1000000

namespace LeakDet

/-! Shallow embedding of nose_leak_detector/plugin.py.

Conventions used throughout:
* Python objects tracked by weak references are modelled by their id, a Nat.
  A weak reference is the id itself; dereferencing is modelled by a liveness
  oracle live : Nat → Bool (a dead reference dereferences to None, whose id
  never equals the id of a live mock, so filtering by liveness is the exact
  id-set semantics of the source).
* The ignore filter any(word in repr(m) for word in IGNORED_MOCK_NAME_WORDS)
  depends on the external repr of the mock; it is modelled by an oracle
  ignored : Nat → Bool.
* Heap summaries (pympler) are external; get_summary is an oracle argument
  getSummary : Unit → List Row, resource.getrusage is an Int argument.
* Machine integers do not arise: Python ints are unbounded, modelled by Int.
-/

/-- Memory summary row: (class key, instance count, total size), as in a
pympler summary row [key, count, size]. Class keys are modelled as Nat;
Python compares them with a total order. -/
abbrev Row := Nat × Int × Int

/-- Model of the local objects_key of _fast_get_summary_diff: the sort and
merge key of a row, object_footprint[0]. -/
def objects_key (r : Row) : Nat := r.1

/-- Model of the local val_neg of _fast_get_summary_diff:
[lval[0], -lval[1], -lval[2]]. -/
def val_neg (r : Row) : Row := (r.1, -r.2.1, -r.2.2)

/-- Stable insertion of a row into a list sorted by key; building block of
the model of Python sorted(xs, key=objects_key). -/
def insort (a : Row) : List Row → List Row
  | [] => [a]
  | b :: l => if a.1 ≤ b.1 then a :: b :: l else b :: insort a l

/-- Model of Python sorted(xs, key=objects_key): a stable sort by key. -/
def sortRows (xs : List Row) : List Row := xs.foldr insort []

/-- The merge loop of _fast_get_summary_diff on the two key-sorted lists
lsorted, rsorted. The while loop with its lval, rval, lend, rend cursor state
is equivalent to this recursion: equal keys emit the delta row and advance
both cursors; a smaller left key emits val_neg of the left row and advances
left; otherwise the right row is emitted verbatim and right advances. When
the left side is exhausted the rest of the right side is flushed verbatim
(the extend of [rval] + rit); when the right side is exhausted the rest of
the left side is flushed negated. -/
def summaryMerge : List Row → List Row → List Row
  | [], rs => rs
  | ls, [] => ls.map val_neg
  | l :: ls, r :: rs =>
    if l.1 = r.1 then (r.1, r.2.1 - l.2.1, r.2.2 - l.2.2) :: summaryMerge ls rs
    else if l.1 < r.1 then val_neg l :: summaryMerge ls (r :: rs)
    else r :: summaryMerge (l :: ls) rs

/-- Model of the static method _fast_get_summary_diff(left, right): sort both
inputs by objects_key, then run the linear merge loop. -/
def fast_get_summary_diff (left right : List Row) : List Row :=
  summaryMerge (sortRows left) (sortRows right)

/-- First (count, size) associated with key k in a summary, if any. -/
def lookupRow (k : Nat) : List Row → Option (Int × Int)
  | [] => none
  | r :: rs => if r.1 = k then some (r.2.1, r.2.2) else lookupRow k rs

/-- Modelled from the spec: the per-key delta rule the spec states for the
summary diff. A key on both sides yields (R.count − L.count, R.size − L.size),
a key only on the left yields (−L.count, −L.size), a key only on the right
yields the right value verbatim, and a key on neither side is absent. -/
def diffSpec : Option (Int × Int) → Option (Int × Int) → Option (Int × Int)
  | some l, some r => some (r.1 - l.1, r.2 - l.2)
  | some l, none => some (-l.1, -l.2)
  | none, some r => some r
  | none, none => none

/-- Sorted ascending by class key with unique keys, i.e. strictly ascending
keys. -/
abbrev sortedKeys (xs : List Row) : Prop :=
  List.Pairwise (fun a b : Row => a.1 < b.1) xs

/-! State model of LeakDetectorPlugin. -/

/-- A nose test wrapper as run_test and the before/after hooks see it:
cls is the identity of type(test.test), clsName models
test.test.mathlib_class_name, modName models the module attribute of that
type, and txt models str(test). Type identity comparisons (is / is not) on
type(test.test) are comparisons of cls. -/
structure TestObj where
  cls : Nat
  clsName : String
  modName : String
  txt : String
deriving DecidableEq, Repr

/-- Which result object an addError call is made on: the stored result of
the previous test (self.last_test_result), the result passed to run_test for
the current test, or the run result passed to finalize. -/
inductive Sink where
  | prior
  | current
  | run
deriving DecidableEq, Repr

/-- Externally visible actions of the driver: addError calls (with the test
object they are recorded against, None for a missing last_test), result.stop
calls, and the execution of the test body itself (test.test(result)). -/
inductive Act where
  | addError (s : Sink) (t : Option TestObj)
  | stop
  | runBody (t : TestObj)
deriving DecidableEq, Repr

/-- Console output events of finished_level: the peak memory usage print,
the colored delta report (with the filtered non-zero rows), or the
no-changes report. -/
inductive ROut where
  | peakUsage (name : String) (usage : Int)
  | deltaReport (level : Nat) (name : String) (rows : List Row)
  | noChanges (level : Nat) (name : String) (usage : Int)
deriving DecidableEq, Repr

/-- Python dict lookup d.get(k) on an association list. -/
def getAssoc {α : Type} (m : List (Nat × α)) (k : Nat) : Option α :=
  match m.find? (fun p => p.1 == k) with
  | some p => some p.2
  | none => none

/-- Python dict assignment d[k] = v on an association list. -/
def setAssoc {α : Type} (m : List (Nat × α)) (k : Nat) (v : α) : List (Nat × α) :=
  (k, v) :: m.filter (fun p => p.1 != k)

/-- The mutable fields of LeakDetectorPlugin (init plus the class
attributes detect_leaked_mocks and fail_fast). last_test_result stores a
result object or None; only its truthiness and identity as a sink matter, so
it is a Bool. final_exc_info models the _final_exc_info member and carries
the list of leaked mock ids of the stored LeakDetected exception. -/
structure PState where
  reporting_level : Nat
  check_for_leaks_before_next_test : Bool
  report_delta : Bool
  add_traceback_to_mocks : Bool
  patch_mock : Bool
  failed_test_with_leak : Bool
  last_test : Option TestObj
  last_test_result : Bool
  level_name : List (Nat × Option String)
  previous_summaries : List (Nat × List Row)
  current_summary : Option (List Row)
  skip_next_check : Bool
  final_exc_info : Option (List Nat)
  mock_refs : List Nat
  previous_mock_refs : List Nat
  detect_leaked_mocks : Bool
  fail_fast : Bool
deriving DecidableEq, Repr

/-- The state built by LeakDetectorPlugin init together with the class
attribute defaults detect_leaked_mocks = True and fail_fast = True. -/
def initState : PState where
  reporting_level := 0
  check_for_leaks_before_next_test := true
  report_delta := false
  add_traceback_to_mocks := false
  patch_mock := false
  failed_test_with_leak := false
  last_test := none
  last_test_result := false
  level_name := []
  previous_summaries := []
  current_summary := none
  skip_next_check := false
  final_exc_info := none
  mock_refs := []
  previous_mock_refs := []
  detect_leaked_mocks := true
  fail_fast := true

/-! Mock bookkeeping: register_mock and check_for_leaks. -/

/-- register_mock: append a weak reference to the mock to mock_refs. The
traceback captured on the mock object itself is data attached to the
external mock, not plugin state, so it does not appear here. -/
def register_mock (st : PState) (m : Nat) : PState :=
  { st with mock_refs := st.mock_refs ++ [m] }

/-- The new_mocks list computed inside check_for_leaks. mocks is the list of
live dereferenced tracked refs, filtered_mocks drops mocks whose repr
contains an ignored word (oracle ignored), and new_mocks keeps the filtered
mocks whose id is not among the ids of the dereferenced previous refs (a
dead previous ref dereferences to None, whose id matches no live mock, so
the id set of the previous refs is exactly the live-filtered previous
list). -/
def new_mocks (live ignored : Nat → Bool) (refs prev : List Nat) : List Nat :=
  ((refs.filter live).filter (fun m => !ignored m)).filter
    (fun m => decide (m ∉ prev.filter live))

/-- check_for_leaks: gc.collect (implicit in the liveness oracle),
dereference the tracked refs keeping the live ones, compute new_mocks, then
replace previous_mock_refs with refs to the unfiltered live list, and
finally raise LeakDetected (modelled as some leaked-ids) when new_mocks is
non-empty. The previous_mock_refs update happens before the raise, exactly
as in the source. -/
def check_for_leaks (live ignored : Nat → Bool) (st : PState) :
    PState × Option (List Nat) :=
  let mocks := st.mock_refs.filter live
  let nm := new_mocks live ignored st.mock_refs st.previous_mock_refs
  let st1 := { st with previous_mock_refs := mocks }
  if nm.isEmpty then (st1, none) else (st1, some nm)

/-! Run start: create_initial_summary and begin. -/

/-- create_initial_summary: forget current_summary; if no previous summaries
exist yet and both a reporting level and delta reporting are configured,
store the initial summary for every level 1..4. The truthiness test on
reporting_level is the comparison with 0. -/
def create_initial_summary (getSummary : Unit → List Row) (st : PState) : PState :=
  let st1 := { st with current_summary := none }
  if st1.previous_summaries.isEmpty && decide (st1.reporting_level ≠ 0)
      && st1.report_delta then
    let filled := [1, 2, 3, 4].foldl
      (fun m i => setAssoc m i (getSummary ())) st1.previous_summaries
    { st1 with previous_summaries := filled }
  else st1

/-- begin: create the initial summary, then, when mock detection is on,
record the pre-existing mocks (after a gc pass, every live Mock instance
found on the heap, given as preexisting) as weak references in mock_refs.
The patch of the mock constructor is external monkey patching whose effect
is modelled by explicit register_mock events. -/
def pluginBegin (getSummary : Unit → List Row) (preexisting : List Nat)
    (st : PState) : PState :=
  let st1 := create_initial_summary getSummary st
  if st1.detect_leaked_mocks then { st1 with mock_refs := preexisting } else st1

/-! Level tracking: started_level and finished_level. -/

/-- started_level: record the name as the active identity for the level. -/
def started_level (st : PState) (level : Nat) (name : Option String) : PState :=
  { st with level_name := setAssoc st.level_name level name }

/-- finished_level(level, name). The two leading conditionals of the source
are complementary: when level ≤ reporting_level the check flag is set and
execution continues, otherwise the call returns at once. Under report_delta
the peak usage is printed, previous_summaries[level] is read (a missing key
raises KeyError, modelled by the Bool component false; the peak print
already emitted is kept), the current summary is computed unless a truthy
one is cached (a cached empty list is falsy and is recomputed), the diff is
taken and its rows with a non-zero count or size delta are reported (or a
no-changes report is printed), and the current summary becomes the new
previous summary for this level. getSummary models self.get_summary and
memUsage models resource.getrusage(...).ru_maxrss. The Bool component is
true when no exception escaped. -/
def finished_level (getSummary : Unit → List Row) (memUsage : Int)
    (st : PState) (level : Nat) (name : String) : PState × List ROut × Bool :=
  if level ≤ st.reporting_level then
    let st1 := { st with check_for_leaks_before_next_test := true }
    if st1.report_delta then
      let outs0 := [ROut.peakUsage name memUsage]
      match getAssoc st1.previous_summaries level with
      | none => (st1, outs0, false)
      | some old =>
        let cur := match st1.current_summary with
          | some c => if c.isEmpty then getSummary () else c
          | none => getSummary ()
        let st2 := { st1 with current_summary := some cur }
        let diff := fast_get_summary_diff old cur
        let filtered := diff.filter
          (fun r => decide (r.2.1 ≠ 0) || decide (r.2.2 ≠ 0))
        let outs := if filtered.isEmpty
          then outs0 ++ [ROut.noChanges level name memUsage]
          else outs0 ++ [ROut.deltaReport level name filtered]
        let st3 := { st2 with
          previous_summaries := setAssoc st2.previous_summaries level cur }
        (st3, outs, true)
    else (st1, [], true)
  else (st, [], true)

/-! The nose lifecycle hooks beforeTest and afterTest. Besides the state
they return the console output produced and, for the purpose of tracing,
the list of (level, name) arguments passed to finished_level. -/

/-- beforeTest(test): when a previous test exists and its declaring type
differs from the type of the current test, finish the Class level for the
previous type; when no previous test exists or the types agree, start the
Class level for the current type; always start the Test level. -/
def beforeTest (getSummary : Unit → List Row) (memUsage : Int)
    (st : PState) (t : TestObj) :
    PState × List ROut × List (Nat × String) :=
  let fin : PState × List ROut × List (Nat × String) :=
    match st.last_test with
    | some lt =>
      if lt.cls ≠ t.cls then
        let r := finished_level getSummary memUsage st 3 lt.clsName
        (r.1, r.2.1, [(3, lt.clsName)])
      else (st, [], [])
    | none => (st, [], [])
  let st1 := fin.1
  let st2 :=
    match st1.last_test with
    | none => started_level st1 3 (some t.clsName)
    | some lt => if lt.cls = t.cls then started_level st1 3 (some t.clsName)
        else st1
  let st3 := started_level st2 4 (some t.txt)
  (st3, fin.2.1, fin.2.2)

/-- afterTest(test): remember the test as last_test, then finish the Test
level for it. -/
def afterTest (getSummary : Unit → List Row) (memUsage : Int)
    (st : PState) (t : TestObj) :
    PState × List ROut × List (Nat × String) :=
  let st1 := { st with last_test := some t }
  let r := finished_level getSummary memUsage st1 4 t.txt
  (r.1, r.2.1, [(4, t.txt)])

/-- A scope lifecycle event delivered by nose to the implemented hooks. The
beforeContext, afterContext, beforeDirectory and afterDirectory hooks are
commented out in the source, so only test events exist. -/
inductive HookEv where
  | before (t : TestObj)
  | after (t : TestObj)
deriving DecidableEq, Repr

/-- Dispatch one lifecycle event to its hook. -/
def applyHook (getSummary : Unit → List Row) (memUsage : Int)
    (st : PState) : HookEv → PState × List ROut × List (Nat × String)
  | HookEv.before t => beforeTest getSummary memUsage st t
  | HookEv.after t => afterTest getSummary memUsage st t

/-- Drive a sequence of lifecycle events, accumulating console output and
the trace of finished_level invocations. -/
def runHooks (getSummary : Unit → List Row) (memUsage : Int)
    (evs : List HookEv) (st : PState) :
    PState × List ROut × List (Nat × String) :=
  match evs with
  | [] => (st, [], [])
  | e :: rest =>
    let r := applyHook getSummary memUsage st e
    let r2 := runHooks getSummary memUsage rest r.1
    (r2.1, r.2.1 ++ r2.2.1, r.2.2 ++ r2.2.2)

/-! The per-test driver: do_check and run_test. -/

/-- The local do_check of run_test: run check_for_leaks; on LeakDetected,
when a previous result object is known the error is added to that result
against last_test and then also added to the current result against the
current test; otherwise it is added to the current result against the
current test (the before flag only changes the message text). In either
case failed_test_with_leak is set and, when fail_fast is NOT set,
result.stop() is called. Message construction (get_level_path and the
annotations) is presentation only and is not modelled. -/
def do_check (live ignored : Nat → Bool) (st : PState) (t : TestObj)
    (before : Bool) : PState × List Act :=
  match check_for_leaks live ignored st with
  | (st1, none) => (st1, [])
  | (st1, some _) =>
    let acts := if st1.last_test_result then
        [Act.addError Sink.prior st1.last_test,
         Act.addError Sink.current (some t)]
      else [Act.addError Sink.current (some t)]
    let st2 := { st1 with failed_test_with_leak := true }
    let acts2 := acts ++ (if st2.fail_fast then [] else [Act.stop])
    (st2, acts2)

/-- run_test(test, result): forget the current summary; when the check flag
is set run a pre-test check (with the heap as of that moment, oracles live1
and ignored1); record the module name at level 2; execute the test body
(which registers the mocks created during the test, bodyRegs, via the
patched constructor); when the reporting level is at least Test run a
post-test check (oracles live2, ignored2); finally remember the result
object of this test in last_test_result. The emitted actions are returned
in order. -/
def run_test (live1 ignored1 live2 ignored2 : Nat → Bool)
    (bodyRegs : List Nat) (st : PState) (t : TestObj) : PState × List Act :=
  let st0 := { st with current_summary := none }
  let pre : PState × List Act :=
    if st0.check_for_leaks_before_next_test then
      do_check live1 ignored1 st0 t true
    else (st0, [])
  let stA := { pre.1 with
    level_name := setAssoc pre.1.level_name 2 (some t.modName) }
  let stB := bodyRegs.foldl register_mock stA
  let post : PState × List Act :=
    if 4 ≤ stB.reporting_level then do_check live2 ignored2 stB t false
    else (stB, [])
  let stC := { post.1 with last_test_result := true }
  (stC, pre.2 ++ [Act.runBody t] ++ post.2)

/-! Run end: final_check, report and finalize. -/

/-- final_check: when mock detection is on and no final exception has been
stored yet, forget the current summary, clear all previous summaries and
run check_for_leaks, storing a raised LeakDetected in final_exc_info. The
Bool component records whether a detection pass (gc.collect plus
dereferencing) was performed. -/
def final_check (live ignored : Nat → Bool) (st : PState) : PState × Bool :=
  if st.detect_leaked_mocks && st.final_exc_info.isNone then
    let st1 := { st with current_summary := none, previous_summaries := [] }
    match check_for_leaks live ignored st1 with
    | (st2, none) => (st2, true)
    | (st2, some nm) => ({ st2 with final_exc_info := some nm }, true)
  else (st, false)

/-- report(stream): run the final check; the message written to the stream
is presentation only. -/
def reportPhase (live ignored : Nat → Bool) (st : PState) : PState × Bool :=
  final_check live ignored st

/-- finalize(result): run the final check again, then, when a final
exception is stored and a last test is known, add the error to the run
result against the last test. The unpatching of the mock constructor is
external. -/
def finalize (live ignored : Nat → Bool) (st : PState) :
    PState × Bool × List Act :=
  let r := final_check live ignored st
  let acts : List Act :=
    match r.1.final_exc_info, r.1.last_test with
    | some _, some lt => [Act.addError Sink.run (some lt)]
    | _, _ => []
  (r.1, r.2, acts)

/-! Event sequences over the mock registry, used to express the temporal
claim that a still-live leaked mock is reported at most once. -/

/-- One step between two leak checks: either a mock registration (the
constructor hook firing during a test body) or a full check_for_leaks pass
with the heap oracles of that moment. -/
inductive MEvent where
  | reg (m : Nat)
  | chk (live ignored : Nat → Bool)

/-- Whether a mock id is still live at the given event (registrations do
not consult liveness). -/
def keepsLive (m : Nat) : MEvent → Bool
  | MEvent.reg _ => true
  | MEvent.chk live _ => live m

/-- Apply one registry event to the state. -/
def applyMEvent (st : PState) : MEvent → PState
  | MEvent.reg m => register_mock st m
  | MEvent.chk live ignored => (check_for_leaks live ignored st).1

/-- Apply a sequence of registry events. -/
def applyMEvents (es : List MEvent) (st : PState) : PState :=
  es.foldl applyMEvent st

/-! Helper lemmas about check_for_leaks and the registry. -/

/-- The state returned by check_for_leaks only replaces previous_mock_refs
with the live dereferenced tracked refs, in the raising and in the normal
branch alike. -/
lemma check_for_leaks_fst (live ignored : Nat → Bool) (st : PState) :
    (check_for_leaks live ignored st).1 =
      { st with previous_mock_refs := st.mock_refs.filter live } := by
  unfold check_for_leaks
  dsimp only
  split <;> rfl

/-- The exception component of check_for_leaks is exactly the non-empty
new_mocks list. -/
lemma check_for_leaks_snd (live ignored : Nat → Bool) (st : PState) :
    (check_for_leaks live ignored st).2 =
      if (new_mocks live ignored st.mock_refs st.previous_mock_refs).isEmpty
      then none
      else some (new_mocks live ignored st.mock_refs st.previous_mock_refs) := by
  unfold check_for_leaks
  dsimp only
  split <;> simp_all

/-- A member of new_mocks is a tracked, live, unignored mock. -/
lemma mem_new_mocks {live ignored : Nat → Bool} {refs prev : List Nat}
    {m : Nat} (h : m ∈ new_mocks live ignored refs prev) :
    m ∈ refs ∧ live m = true ∧ ignored m = false := by
  simp only [new_mocks, List.mem_filter, decide_eq_true_eq,
    Bool.not_eq_true'] at h
  exact ⟨h.1.1.1, h.1.1.2, h.1.2⟩

/-- A mock that is in the previous baseline and still live is excluded from
new_mocks. -/
lemma not_mem_new_mocks_of_prev {live ignored : Nat → Bool}
    {refs prev : List Nat} {m : Nat} (hp : m ∈ prev) (hl : live m = true) :
    m ∉ new_mocks live ignored refs prev := by
  intro h
  simp only [new_mocks, List.mem_filter, decide_eq_true_eq] at h
  exact h.2 ⟨hp, hl⟩

/-- Checking against a baseline that is already the live filter of the
tracked refs finds nothing new. -/
lemma new_mocks_of_self_baseline (live ignored : Nat → Bool)
    (refs : List Nat) :
    new_mocks live ignored refs (refs.filter live) = [] := by
  apply List.filter_eq_nil_iff.mpr
  intro m hm
  have hmem : m ∈ refs.filter live := (List.mem_filter.mp hm).1
  simp only [decide_eq_true_eq, not_not, Decidable.not_not]
  exact List.mem_filter.mpr ⟨hmem, (List.mem_filter.mp hmem).2⟩

/-- Once a mock id sits in both the tracked list and the baseline, any
sequence of registrations and checks during which it stays live keeps it in
both. -/
lemma applyMEvents_keeps (m : Nat) (es : List MEvent) (st : PState)
    (hp : m ∈ st.previous_mock_refs) (hm : m ∈ st.mock_refs)
    (hes : ∀ e ∈ es, keepsLive m e = true) :
    m ∈ (applyMEvents es st).previous_mock_refs ∧
      m ∈ (applyMEvents es st).mock_refs := by
  induction es generalizing st with
  | nil => exact ⟨hp, hm⟩
  | cons e rest ih =>
    have he : keepsLive m e = true := hes e (List.mem_cons_self e rest)
    have hrest : ∀ x ∈ rest, keepsLive m x = true :=
      fun x hx => hes x (List.mem_cons_of_mem e hx)
    have hstep : applyMEvents (e :: rest) st =
        applyMEvents rest (applyMEvent st e) := rfl
    rw [hstep]
    cases e with
    | reg k =>
      exact ih (applyMEvent st (MEvent.reg k)) hp
        (by simpa [applyMEvent, register_mock] using
          List.mem_append_left [k] hm) hrest
    | chk live ignored =>
      refine ih (applyMEvent st (MEvent.chk live ignored)) ?_ ?_ hrest
      · simp only [applyMEvent, check_for_leaks_fst]
        exact List.mem_filter.mpr ⟨hm, by simpa [keepsLive] using he⟩
      · simp only [applyMEvent, check_for_leaks_fst]
        exact hm

/-- C6: after every invocation of check_for_leaks, whether it raises or
returns normally, previous_mock_refs holds weak references to exactly the
tracked stubs that were live at that check, unfiltered by the ignore marker
but with collected stubs dropped, so it is never a superset of the live
set. -/
theorem check_for_leaks_updates_baseline (live ignored : Nat → Bool)
    (st : PState) :
    (check_for_leaks live ignored st).1.previous_mock_refs =
        st.mock_refs.filter live ∧
      ((check_for_leaks live ignored st).1.previous_mock_refs.all live) =
        true := by
  rw [check_for_leaks_fst]
  refine ⟨rfl, ?_⟩
  simp only [List.all_eq_true]
  intro m hm
  exact (List.mem_filter.mp hm).2

/-- C8: a live stub whose representation contains a configured ignore
marker is never in the new-leak set and never occurs in the payload of a
raised LeakDetected, at every check. -/
theorem ignored_mock_never_reported (live ignored : Nat → Bool)
    (st : PState) (m : Nat) (hig : ignored m = true) :
    m ∉ new_mocks live ignored st.mock_refs st.previous_mock_refs ∧
      ∀ l, (check_for_leaks live ignored st).2 = some l → m ∉ l := by
  have h1 : m ∉ new_mocks live ignored st.mock_refs st.previous_mock_refs := by
    intro h
    have h2 := (mem_new_mocks h).2.2
    rw [hig] at h2
    exact Bool.noConfusion h2
  refine ⟨h1, ?_⟩
  intro l hl
  rw [check_for_leaks_snd] at hl
  split at hl
  · cases hl
  · cases hl
    exact h1

/-- C8 witness: a concrete ignored mock (id 7, matched by the ignore
oracle) is not in the new-leak set of a check that does report mock 5. -/
theorem ignored_mock_never_reported_witness :
    7 ∉ new_mocks (fun _ => true) (fun m => m == 7)
      ({ initState with mock_refs := [5, 7] }).mock_refs
      ({ initState with mock_refs := [5, 7] }).previous_mock_refs :=
  (ignored_mock_never_reported (fun _ => true) (fun m => m == 7)
    { initState with mock_refs := [5, 7] } 7 rfl).1

/-- C7: a stub that is reported as a new leak at one check and stays live
through an arbitrary sequence of later registrations and checks is a member
of the baseline at every one of those later checks, hence never again in
the new-leak set. -/
theorem leaked_mock_reported_once
    (live0 ignored0 live ignored : Nat → Bool) (st : PState) (m : Nat)
    (es : List MEvent)
    (hrep : m ∈ new_mocks live0 ignored0 st.mock_refs st.previous_mock_refs)
    (hes : ∀ e ∈ es, keepsLive m e = true)
    (hlive : live m = true) :
    m ∉ new_mocks live ignored
      (applyMEvents es (check_for_leaks live0 ignored0 st).1).mock_refs
      (applyMEvents es (check_for_leaks live0 ignored0 st).1).previous_mock_refs := by
  obtain ⟨hm, hl0, -⟩ := mem_new_mocks hrep
  have hp1 : m ∈ (check_for_leaks live0 ignored0 st).1.previous_mock_refs := by
    rw [check_for_leaks_fst]
    exact List.mem_filter.mpr ⟨hm, hl0⟩
  have hm1 : m ∈ (check_for_leaks live0 ignored0 st).1.mock_refs := by
    rw [check_for_leaks_fst]
    exact hm
  obtain ⟨hpF, -⟩ := applyMEvents_keeps m es _ hp1 hm1 hes
  exact not_mem_new_mocks_of_prev hpF hlive

/-- C7 witness: mock 5 is reported at the first check from a fresh tracked
list, a further mock 7 is registered, and at the next check mock 5, still
live, is no longer in the new-leak set. -/
theorem leaked_mock_reported_once_witness :
    5 ∉ new_mocks (fun _ => true) (fun _ => false)
      (applyMEvents [MEvent.reg 7]
        (check_for_leaks (fun _ => true) (fun _ => false)
          { initState with mock_refs := [5] }).1).mock_refs
      (applyMEvents [MEvent.reg 7]
        (check_for_leaks (fun _ => true) (fun _ => false)
          { initState with mock_refs := [5] }).1).previous_mock_refs :=
  leaked_mock_reported_once (fun _ => true) (fun _ => false)
    (fun _ => true) (fun _ => false) { initState with mock_refs := [5] } 5
    [MEvent.reg 7] (by decide)
    (by
      intro e he
      rw [List.mem_singleton] at he
      rw [he]
      rfl)
    rfl

/-! Claims about run_test: fail-fast and attribution. -/

/-- C2: evaluation of run_test at the failing input. With the default
fail_fast = true and one leaked mock detected at the pre-test check, the
emitted actions contain no result.stop call; with fail_fast = false the
very same situation does emit result.stop. The guard in the source is
if not self.fail_fast, so the stop signal is inverted with respect to the
claim. -/
theorem run_test_stop_only_without_fail_fast :
    Act.stop ∉
      (run_test (fun _ => true) (fun _ => false) (fun _ => true)
        (fun _ => false) [] { initState with mock_refs := [5] }
        ⟨0, "C", "M", "t1"⟩).2 ∧
    Act.stop ∈
      (run_test (fun _ => true) (fun _ => false) (fun _ => true)
        (fun _ => false) []
        { initState with mock_refs := [5], fail_fast := false }
        ⟨0, "C", "M", "t1"⟩).2 := by
  decide

/-- C3 counterexample: a leak caught by the pre-test check while a previous
result object is known is also recorded, via addError on the current result
object, against the test that is about to run (t2), contradicting the
claim that it is recorded against the prior test only. -/
theorem pre_check_error_hits_current_test :
    Act.addError Sink.current (some ⟨1, "D", "M", "t2"⟩) ∈
      (run_test (fun _ => true) (fun _ => false) (fun _ => true)
        (fun _ => false) []
        { initState with mock_refs := [5], last_test_result := true, last_test := some ⟨0, "C", "M", "t1"⟩ }
        ⟨1, "D", "M", "t2"⟩).2 := by
  decide

/-- The action list of do_check when a leak is detected and a previous
result object is known. -/
lemma do_check_acts_of_leak (live ignored : Nat → Bool) (st : PState)
    (t : TestObj) (b : Bool)
    (hprev : st.last_test_result = true)
    (hleak : new_mocks live ignored st.mock_refs st.previous_mock_refs ≠ []) :
    (do_check live ignored st t b).2 =
      [Act.addError Sink.prior st.last_test,
        Act.addError Sink.current (some t)] ++
        (if st.fail_fast then [] else [Act.stop]) := by
  unfold do_check
  have hsnd := check_for_leaks_snd live ignored st
  have hfst := check_for_leaks_fst live ignored st
  have hne : (new_mocks live ignored st.mock_refs
      st.previous_mock_refs).isEmpty = false := by
    cases hnm : new_mocks live ignored st.mock_refs st.previous_mock_refs with
    | nil => exact absurd hnm hleak
    | cons a l => rfl
  rw [hne, if_neg (by simp)] at hsnd
  cases hc : check_for_leaks live ignored st with
  | mk st1 o =>
    rw [hc] at hsnd hfst
    dsimp only at hsnd hfst
    subst hsnd
    dsimp only
    rw [hfst]
    simp [hprev]

/-- C3 amended: when the pre-test check catches a leak and a previous
result object is known, the error is recorded against the prior test on the
prior result object AND additionally recorded via addError against the test
that is about to run on the current result object. -/
theorem pre_check_error_attribution (live1 ignored1 live2 ignored2 : Nat → Bool)
    (bodyRegs : List Nat) (st : PState) (t : TestObj)
    (hflag : st.check_for_leaks_before_next_test = true)
    (hprev : st.last_test_result = true)
    (hleak : new_mocks live1 ignored1 st.mock_refs st.previous_mock_refs ≠ []) :
    Act.addError Sink.prior st.last_test ∈
        (run_test live1 ignored1 live2 ignored2 bodyRegs st t).2 ∧
      Act.addError Sink.current (some t) ∈
        (run_test live1 ignored1 live2 ignored2 bodyRegs st t).2 := by
  unfold run_test
  have hflag0 : ({ st with current_summary := none } :
      PState).check_for_leaks_before_next_test = true := hflag
  dsimp only
  rw [if_pos hflag0]
  have hacts := do_check_acts_of_leak live1 ignored1
    { st with current_summary := none } t true hprev hleak
  rw [hacts]
  constructor
  · apply List.mem_append_left
    apply List.mem_append_left
    exact List.mem_cons_self _ _
  · apply List.mem_append_left
    apply List.mem_append_left
    exact List.mem_cons_of_mem _ (List.mem_cons_self _ _)

/-- C3 amended witness: with one leaked mock, a known prior result and
prior test t1, the pre-test check before t2 records the error both against
t1 on the prior result object and against t2 on the current one. -/
theorem pre_check_error_attribution_witness :
    Act.addError Sink.prior (some ⟨0, "C", "M", "t1"⟩) ∈
      (run_test (fun _ => true) (fun _ => false) (fun _ => true)
        (fun _ => false) []
        { initState with mock_refs := [5], last_test_result := true, last_test := some ⟨0, "C", "M", "t1"⟩ }
        ⟨1, "D", "M", "t2"⟩).2 ∧
    Act.addError Sink.current (some ⟨1, "D", "M", "t2"⟩) ∈
      (run_test (fun _ => true) (fun _ => false) (fun _ => true)
        (fun _ => false) []
        { initState with mock_refs := [5], last_test_result := true, last_test := some ⟨0, "C", "M", "t1"⟩ }
        ⟨1, "D", "M", "t2"⟩).2 :=
  pre_check_error_attribution (fun _ => true) (fun _ => false)
    (fun _ => true) (fun _ => false) []
    { initState with mock_refs := [5], last_test_result := true, last_test := some ⟨0, "C", "M", "t1"⟩ }
    ⟨1, "D", "M", "t2"⟩ rfl rfl (by decide)

/-! Claims about run start. -/

/-- C4 counterexample: begin with one pre-existing live mock (id 9) leaves
previous_mock_refs empty, the pre-existing mock is in the new-leak set of
the very first check, and that check raises with it. -/
theorem begin_leaves_baseline_empty :
    (pluginBegin (fun _ => []) [9] initState).previous_mock_refs = [] ∧
      9 ∈ new_mocks (fun _ => true) (fun _ => false)
        (pluginBegin (fun _ => []) [9] initState).mock_refs
        (pluginBegin (fun _ => []) [9] initState).previous_mock_refs ∧
      (check_for_leaks (fun _ => true) (fun _ => false)
        (pluginBegin (fun _ => []) [9] initState)).2 = some [9] := by
  decide

/-- create_initial_summary leaves every field except current_summary and
previous_summaries unchanged. -/
lemma create_initial_summary_fields (getSummary : Unit → List Row)
    (st : PState) :
    (create_initial_summary getSummary st).mock_refs = st.mock_refs ∧
      (create_initial_summary getSummary st).previous_mock_refs =
        st.previous_mock_refs ∧
      (create_initial_summary getSummary st).detect_leaked_mocks =
        st.detect_leaked_mocks := by
  unfold create_initial_summary
  dsimp only
  split <;> exact ⟨rfl, rfl, rfl⟩

/-- C4 amended: begin snapshots the pre-existing stubs into mock_refs, the
tracked list, while previous_mock_refs is left unchanged; consequently with
the empty initial baseline every pre-existing stub that is live and not
ignored at the first check is classified as a new leak there. -/
theorem begin_records_preexisting_in_mock_refs (getSummary : Unit → List Row)
    (preexisting : List Nat) (st : PState)
    (hd : st.detect_leaked_mocks = true) :
    (pluginBegin getSummary preexisting st).mock_refs = preexisting ∧
      (pluginBegin getSummary preexisting st).previous_mock_refs =
        st.previous_mock_refs ∧
      ∀ live ignored : Nat → Bool, ∀ m ∈ preexisting,
        live m = true → ignored m = false → st.previous_mock_refs = [] →
        m ∈ new_mocks live ignored
          (pluginBegin getSummary preexisting st).mock_refs
          (pluginBegin getSummary preexisting st).previous_mock_refs := by
  obtain ⟨h1, h2, h3⟩ := create_initial_summary_fields getSummary st
  have hbegin : pluginBegin getSummary preexisting st =
      { create_initial_summary getSummary st with mock_refs := preexisting } := by
    unfold pluginBegin
    rw [if_pos (by rw [h3]; exact hd)]
  refine ⟨by rw [hbegin], by rw [hbegin]; exact h2, ?_⟩
  intro live ignored m hm hlive hig hemp
  rw [hbegin]
  show m ∈ new_mocks live ignored preexisting
    (create_initial_summary getSummary st).previous_mock_refs
  rw [h2, hemp]
  simp only [new_mocks, List.mem_filter, List.filter_nil,
    List.not_mem_nil, decide_eq_true_eq, not_false_eq_true]
  exact ⟨⟨⟨hm, hlive⟩, by rw [hig]; rfl⟩, trivial⟩

/-- C4 amended witness: with detection on and pre-existing live mock 9,
begin leaves the baseline empty, records 9 in mock_refs, and the first
check classifies 9 as a new leak. -/
theorem begin_records_preexisting_witness :
    (pluginBegin (fun _ => []) [9] initState).mock_refs = [9] ∧
      (pluginBegin (fun _ => []) [9] initState).previous_mock_refs = [] ∧
      9 ∈ new_mocks (fun _ => true) (fun _ => false)
        (pluginBegin (fun _ => []) [9] initState).mock_refs
        (pluginBegin (fun _ => []) [9] initState).previous_mock_refs := by
  obtain ⟨h1, h2, h3⟩ := begin_records_preexisting_in_mock_refs
    (fun _ => []) [9] initState rfl
  exact ⟨h1, h2, h3 (fun _ => true) (fun _ => false) 9 (by decide) rfl rfl rfl⟩

/-! Claims about finished_level. -/

/-- A finished_level call at a level strictly finer (greater) than the
reporting threshold returns immediately with no effect and no output. -/
lemma finished_level_noop (getSummary : Unit → List Row) (memUsage : Int)
    (st : PState) (level : Nat) (name : String)
    (h : st.reporting_level < level) :
    finished_level getSummary memUsage st level name = (st, [], true) := by
  unfold finished_level
  rw [if_neg (by omega)]

/-- A finished_level call at a level at or coarser than (less than or equal
to) the reporting threshold sets the check flag, in every branch. -/
lemma finished_level_sets_flag (getSummary : Unit → List Row) (memUsage : Int)
    (st : PState) (level : Nat) (name : String)
    (h : level ≤ st.reporting_level) :
    (finished_level getSummary memUsage st level name).1.check_for_leaks_before_next_test = true := by
  unfold finished_level
  rw [if_pos h]
  dsimp only
  split
  · split
    · rfl
    · rfl
  · rfl

/-- C5 counterexample: with threshold Class (3) an exit at the finer Test
level (4) does not set the check flag (the claim asserts it would), and
with threshold Test (4) an exit at the coarser Class level (3) sets the
flag, i.e. does not return with no effect (the claim asserts it would). -/
theorem finished_level_direction_swapped :
    ((finished_level (fun _ => []) 0
      { initState with reporting_level := 3, check_for_leaks_before_next_test := false }
      4 "t").1.check_for_leaks_before_next_test = false) ∧
    ((finished_level (fun _ => []) 0
      { initState with reporting_level := 4, check_for_leaks_before_next_test := false }
      3 "c").1.check_for_leaks_before_next_test = true) := by
  decide

/-- C5 amended: finished_level sets the check flag exactly when the level
is at or coarser than the configured threshold (level ≤ reporting_level),
and returns immediately with no effect on state or output when the level is
finer than the threshold. -/
theorem finished_level_threshold_behavior (getSummary : Unit → List Row)
    (memUsage : Int) (st : PState) (level : Nat) (name : String) :
    (level ≤ st.reporting_level →
      (finished_level getSummary memUsage st level name).1.check_for_leaks_before_next_test = true) ∧
    (st.reporting_level < level →
      finished_level getSummary memUsage st level name = (st, [], true)) :=
  ⟨finished_level_sets_flag getSummary memUsage st level name,
   finished_level_noop getSummary memUsage st level name⟩

/-- C5 amended witness: with threshold Class (3), an exit at Class sets the
flag and an exit at Test returns the state unchanged with no output. -/
theorem finished_level_threshold_witness :
    ((finished_level (fun _ => []) 0
      { initState with reporting_level := 3, check_for_leaks_before_next_test := false }
      3 "c").1.check_for_leaks_before_next_test = true) ∧
    (finished_level (fun _ => []) 0
      { initState with reporting_level := 3, check_for_leaks_before_next_test := false }
      4 "t" =
      ({ initState with reporting_level := 3, check_for_leaks_before_next_test := false },
        [], true)) :=
  ⟨(finished_level_threshold_behavior (fun _ => []) 0
      { initState with reporting_level := 3, check_for_leaks_before_next_test := false }
      3 "c").1 (by decide),
   (finished_level_threshold_behavior (fun _ => []) 0
      { initState with reporting_level := 3, check_for_leaks_before_next_test := false }
      4 "t").2 (by decide)⟩

/-! Claims about the run-end final check. -/

/-- C9 counterexample: on a run that found no leak, the report phase runs
the final check and the finalize hook then performs another full detection
pass (gc plus dereferencing), so invoking the final-check path a second
time is not free of heap work. -/
theorem final_check_runs_again_after_pass :
    (finalize (fun _ => true) (fun _ => false)
      (reportPhase (fun _ => true) (fun _ => false) initState).1).2.1 = true := by
  decide

/-- When a final exception is already stored, final_check is a no-op. -/
lemma final_check_noop_of_some (live ignored : Nat → Bool) (st : PState)
    (e : List Nat) (he : st.final_exc_info = some e) :
    final_check live ignored st = (st, false) := by
  unfold final_check
  rw [if_neg (by rw [he]; simp)]

/-- When mock detection is off, final_check is a no-op. -/
lemma final_check_noop_of_off (live ignored : Nat → Bool) (st : PState)
    (hd : st.detect_leaked_mocks = false) :
    final_check live ignored st = (st, false) := by
  unfold final_check
  rw [if_neg (by rw [hd]; simp)]

/-- Evaluation of final_check when detection is on and no exception is
stored yet: summaries are cleared, the baseline is replaced by the live
tracked refs, and the exception slot receives the non-empty new-mock
list. -/
lemma final_check_eval (live ignored : Nat → Bool) (st : PState)
    (hd : st.detect_leaked_mocks = true) (hE : st.final_exc_info = none) :
    final_check live ignored st =
      ({ st with current_summary := none, previous_summaries := [], previous_mock_refs := st.mock_refs.filter live, final_exc_info := if (new_mocks live ignored st.mock_refs st.previous_mock_refs).isEmpty then none else some (new_mocks live ignored st.mock_refs st.previous_mock_refs) }, true) := by
  have hfst := check_for_leaks_fst live ignored
    { st with current_summary := none, previous_summaries := [] }
  have hsnd := check_for_leaks_snd live ignored
    { st with current_summary := none, previous_summaries := [] }
  unfold final_check
  rw [if_pos (by rw [hd, hE]; rfl)]
  dsimp only
  cases hc : check_for_leaks live ignored
      { st with current_summary := none, previous_summaries := [] } with
  | mk st2 o =>
    rw [hc] at hfst hsnd
    dsimp only at hfst hsnd
    subst hfst
    subst hsnd
    cases hnm : (new_mocks live ignored st.mock_refs st.previous_mock_refs).isEmpty with
    | true =>
      rw [if_pos rfl]
      dsimp only
      rw [hE]
    | false =>
      rw [if_neg Bool.false_ne_true]

/-- C9 amended: once a failure is stored in final_exc_info the final-check
path is a no-op (no heap work, no second failure); when the first call
found no leak a second call with the same heap re-runs detection but finds
nothing new, and both phases observe the same stored outcome. -/
theorem final_check_outcome_stable (live ignored : Nat → Bool) (st : PState) :
    (∀ e, st.final_exc_info = some e →
      final_check live ignored st = (st, false)) ∧
    ((final_check live ignored (final_check live ignored st).1).1.final_exc_info =
      (final_check live ignored st).1.final_exc_info) := by
  constructor
  · intro e he
    exact final_check_noop_of_some live ignored st e he
  · cases hd : st.detect_leaked_mocks with
    | false =>
      have h1 := final_check_noop_of_off live ignored st hd
      rw [h1]
      dsimp only
      rw [h1]
    | true =>
      cases hE : st.final_exc_info with
      | some e =>
        have h1 := final_check_noop_of_some live ignored st e hE
        rw [h1]
        dsimp only
        rw [h1]
      | none =>
        have h1 := final_check_eval live ignored st hd hE
        have hdB : (final_check live ignored st).1.detect_leaked_mocks = true := by
          rw [h1]
          exact hd
        have hM : (final_check live ignored st).1.mock_refs = st.mock_refs := by
          rw [h1]
        have hP : (final_check live ignored st).1.previous_mock_refs =
            st.mock_refs.filter live := by
          rw [h1]
        have hEB : (final_check live ignored st).1.final_exc_info =
            (if (new_mocks live ignored st.mock_refs st.previous_mock_refs).isEmpty
              then none
              else some (new_mocks live ignored st.mock_refs
                st.previous_mock_refs)) := by
          rw [h1]
        cases hnm : (new_mocks live ignored st.mock_refs st.previous_mock_refs).isEmpty with
        | false =>
          have hsome : (final_check live ignored st).1.final_exc_info =
              some (new_mocks live ignored st.mock_refs st.previous_mock_refs) := by
            rw [hEB, hnm]
            rfl
          have h2 := final_check_noop_of_some live ignored
            (final_check live ignored st).1 _ hsome
          rw [h2]
        | true =>
          have hnone : (final_check live ignored st).1.final_exc_info = none := by
            rw [hEB, hnm]
            rfl
          have h2 := final_check_eval live ignored
            (final_check live ignored st).1 hdB hnone
          rw [h2]
          dsimp only
          rw [hM, hP, new_mocks_of_self_baseline, hnone]
          rfl

/-- C9 amended witness: with a stored failure the final check is a no-op,
and on the initial state the outcome observed by a repeated final check is
the outcome of the first. -/
theorem final_check_outcome_stable_witness :
    (final_check (fun _ => true) (fun _ => false)
      { initState with final_exc_info := some [3] } =
      ({ initState with final_exc_info := some [3] }, false)) ∧
    ((final_check (fun _ => true) (fun _ => false)
      (final_check (fun _ => true) (fun _ => false) initState).1).1.final_exc_info =
      (final_check (fun _ => true) (fun _ => false) initState).1.final_exc_info) :=
  ⟨(final_check_outcome_stable (fun _ => true) (fun _ => false)
      { initState with final_exc_info := some [3] }).1 [3] rfl,
   (final_check_outcome_stable (fun _ => true) (fun _ => false) initState).2⟩

/-! Claims about the lifecycle hooks. -/

/-- finished_level never changes last_test. -/
lemma finished_level_fst_last_test (getSummary : Unit → List Row)
    (memUsage : Int) (st : PState) (level : Nat) (name : String) :
    (finished_level getSummary memUsage st level name).1.last_test =
      st.last_test := by
  unfold finished_level
  dsimp only
  split
  · split
    · split
      · rfl
      · rfl
    · rfl
  · rfl

/-- Evaluation of beforeTest when no previous test exists. -/
lemma beforeTest_eval_none (getSummary : Unit → List Row) (memUsage : Int)
    (st : PState) (t : TestObj) (hlt : st.last_test = none) :
    beforeTest getSummary memUsage st t =
      (started_level (started_level st 3 (some t.clsName)) 4 (some t.txt),
        [], []) := by
  unfold beforeTest
  rw [hlt]
  dsimp only
  rw [hlt]

/-- Evaluation of beforeTest when the previous test has the same declaring
type. -/
lemma beforeTest_eval_same (getSummary : Unit → List Row) (memUsage : Int)
    (st : PState) (t : TestObj) (lt : TestObj) (hlt : st.last_test = some lt)
    (hc : lt.cls = t.cls) :
    beforeTest getSummary memUsage st t =
      (started_level (started_level st 3 (some t.clsName)) 4 (some t.txt),
        [], []) := by
  unfold beforeTest
  rw [hlt]
  dsimp only
  rw [if_neg (by rw [hc]; exact fun h => h rfl)]
  dsimp only
  rw [hlt]
  dsimp only
  rw [if_pos hc]

/-- Evaluation of beforeTest when the previous test has a different
declaring type: the Class level is finished for the previous type and the
Class level is not restarted. -/
lemma beforeTest_eval_diff (getSummary : Unit → List Row) (memUsage : Int)
    (st : PState) (t : TestObj) (lt : TestObj) (hlt : st.last_test = some lt)
    (hc : lt.cls ≠ t.cls) :
    beforeTest getSummary memUsage st t =
      (started_level (finished_level getSummary memUsage st 3 lt.clsName).1
          4 (some t.txt),
        (finished_level getSummary memUsage st 3 lt.clsName).2.1,
        [(3, lt.clsName)]) := by
  unfold beforeTest
  rw [hlt]
  dsimp only
  rw [if_pos hc]
  dsimp only
  rw [finished_level_fst_last_test, hlt]
  dsimp only
  rw [if_neg hc]

/-- Evaluation of afterTest: last_test is recorded, then the Test level is
finished. -/
lemma afterTest_eval (getSummary : Unit → List Row) (memUsage : Int)
    (st : PState) (t : TestObj) :
    afterTest getSummary memUsage st t =
      ((finished_level getSummary memUsage { st with last_test := some t }
          4 t.txt).1,
        (finished_level getSummary memUsage { st with last_test := some t }
          4 t.txt).2.1,
        [(4, t.txt)]) := rfl

/-- The finished_level invocations of beforeTest are at level 3 only. -/
lemma beforeTest_calls (getSummary : Unit → List Row) (memUsage : Int)
    (st : PState) (t : TestObj) :
    (beforeTest getSummary memUsage st t).2.2 = [] ∨
      ∃ n, (beforeTest getSummary memUsage st t).2.2 = [(3, n)] := by
  cases hlt : st.last_test with
  | none =>
    rw [beforeTest_eval_none getSummary memUsage st t hlt]
    exact Or.inl rfl
  | some lt =>
    by_cases hc : lt.cls = t.cls
    · rw [beforeTest_eval_same getSummary memUsage st t lt hlt hc]
      exact Or.inl rfl
    · rw [beforeTest_eval_diff getSummary memUsage st t lt hlt hc]
      exact Or.inr ⟨lt.clsName, rfl⟩

/-- Under a reporting threshold at most Module (2), beforeTest produces no
output and preserves the check flag and the threshold. -/
lemma beforeTest_low (getSummary : Unit → List Row) (memUsage : Int)
    (st : PState) (t : TestObj) (h2 : st.reporting_level ≤ 2) :
    (beforeTest getSummary memUsage st t).2.1 = [] ∧
      (beforeTest getSummary memUsage st t).1.check_for_leaks_before_next_test =
        st.check_for_leaks_before_next_test ∧
      (beforeTest getSummary memUsage st t).1.reporting_level =
        st.reporting_level := by
  cases hlt : st.last_test with
  | none =>
    rw [beforeTest_eval_none getSummary memUsage st t hlt]
    exact ⟨rfl, rfl, rfl⟩
  | some lt =>
    by_cases hc : lt.cls = t.cls
    · rw [beforeTest_eval_same getSummary memUsage st t lt hlt hc]
      exact ⟨rfl, rfl, rfl⟩
    · rw [beforeTest_eval_diff getSummary memUsage st t lt hlt hc]
      rw [finished_level_noop getSummary memUsage st 3 lt.clsName (by omega)]
      exact ⟨rfl, rfl, rfl⟩

/-- Under a reporting threshold at most Module (2), afterTest only records
last_test. -/
lemma afterTest_low (getSummary : Unit → List Row) (memUsage : Int)
    (st : PState) (t : TestObj) (h2 : st.reporting_level ≤ 2) :
    afterTest getSummary memUsage st t =
      ({ st with last_test := some t }, [], [(4, t.txt)]) := by
  rw [afterTest_eval]
  rw [finished_level_noop getSummary memUsage { st with last_test := some t }
    4 t.txt (by dsimp only; omega)]

/-- Unfolding of runHooks on a cons cell. -/
lemma runHooks_cons (getSummary : Unit → List Row) (memUsage : Int)
    (e : HookEv) (rest : List HookEv) (st : PState) :
    runHooks getSummary memUsage (e :: rest) st =
      ((runHooks getSummary memUsage rest
          (applyHook getSummary memUsage st e).1).1,
        (applyHook getSummary memUsage st e).2.1 ++
          (runHooks getSummary memUsage rest
            (applyHook getSummary memUsage st e).1).2.1,
        (applyHook getSummary memUsage st e).2.2 ++
          (runHooks getSummary memUsage rest
            (applyHook getSummary memUsage st e).1).2.2) := rfl

/-- Every finished_level invocation traced by any event sequence is at the
Class (3) or Test (4) level. -/
lemma runHooks_calls (getSummary : Unit → List Row) (memUsage : Int) :
    ∀ (evs : List HookEv) (st : PState),
    ((runHooks getSummary memUsage evs st).2.2.all
      (fun c => c.1 == 3 || c.1 == 4)) = true := by
  intro evs
  induction evs with
  | nil => intro st; rfl
  | cons e rest ih =>
    intro st
    rw [runHooks_cons]
    dsimp only
    rw [List.all_append]
    refine Bool.and_eq_true_iff.mpr ⟨?_, ih _⟩
    cases e with
    | before t =>
      rcases beforeTest_calls getSummary memUsage st t with h | ⟨n, h⟩
      · show ((beforeTest getSummary memUsage st t).2.2.all _) = true
        rw [h]
        rfl
      · show ((beforeTest getSummary memUsage st t).2.2.all _) = true
        rw [h]
        rfl
    | after t =>
      show ((afterTest getSummary memUsage st t).2.2.all _) = true
      rw [afterTest_eval]
      rfl

/-- Under a reporting threshold at most Module (2), a run of lifecycle
events emits no report output and never changes the check flag or the
threshold. -/
lemma runHooks_low (getSummary : Unit → List Row) (memUsage : Int) :
    ∀ (evs : List HookEv) (st : PState), st.reporting_level ≤ 2 →
    (runHooks getSummary memUsage evs st).2.1 = [] ∧
      (runHooks getSummary memUsage evs st).1.check_for_leaks_before_next_test =
        st.check_for_leaks_before_next_test ∧
      (runHooks getSummary memUsage evs st).1.reporting_level =
        st.reporting_level := by
  intro evs
  induction evs with
  | nil => intro st h; exact ⟨rfl, rfl, rfl⟩
  | cons e rest ih =>
    intro st h
    have happ : (applyHook getSummary memUsage st e).2.1 = [] ∧
        (applyHook getSummary memUsage st e).1.check_for_leaks_before_next_test =
          st.check_for_leaks_before_next_test ∧
        (applyHook getSummary memUsage st e).1.reporting_level =
          st.reporting_level := by
      cases e with
      | before t => exact beforeTest_low getSummary memUsage st t h
      | after t =>
        have heq : applyHook getSummary memUsage st (HookEv.after t) =
            afterTest getSummary memUsage st t := rfl
        rw [heq, afterTest_low getSummary memUsage st t h]
        exact ⟨rfl, rfl, rfl⟩
    obtain ⟨ha1, ha2, ha3⟩ := happ
    obtain ⟨hb1, hb2, hb3⟩ := ih (applyHook getSummary memUsage st e).1
      (by rw [ha3]; exact h)
    rw [runHooks_cons]
    dsimp only
    refine ⟨by rw [ha1, hb1]; rfl, by rw [hb2, ha2], by rw [hb3, ha3]⟩

/-- C10: in every run driven through the implemented hooks, finished_level
is only ever invoked at the Class (3) or Test (4) level; consequently with
the reporting level configured to Directory (1) or Module (2) no scope exit
ever produces report output and the check flag is never changed by a scope
exit. -/
theorem hooks_only_finish_class_and_test (getSummary : Unit → List Row)
    (memUsage : Int) (evs : List HookEv) (st : PState) :
    ((runHooks getSummary memUsage evs st).2.2.all
      (fun c => c.1 == 3 || c.1 == 4)) = true ∧
    (st.reporting_level = 1 ∨ st.reporting_level = 2 →
      (runHooks getSummary memUsage evs st).2.1 = [] ∧
      (runHooks getSummary memUsage evs st).1.check_for_leaks_before_next_test =
        st.check_for_leaks_before_next_test) := by
  refine ⟨runHooks_calls getSummary memUsage evs st, ?_⟩
  intro h
  have h2 : st.reporting_level ≤ 2 := by
    rcases h with h | h <;> omega
  obtain ⟨a, b, -⟩ := runHooks_low getSummary memUsage evs st h2
  exact ⟨a, b⟩

/-- C10 witness: a concrete run of three tests over two classes at
reporting level 2 delivers only level 3 and 4 finished_level calls, emits
no report output and leaves the check flag unchanged. -/
theorem hooks_only_finish_class_and_test_witness :
    ((runHooks (fun _ => []) 0
      [HookEv.before ⟨0, "C", "M", "t1"⟩, HookEv.after ⟨0, "C", "M", "t1"⟩,
        HookEv.before ⟨1, "D", "M", "t2"⟩, HookEv.after ⟨1, "D", "M", "t2"⟩]
      { initState with reporting_level := 2 }).2.2.all
        (fun c => c.1 == 3 || c.1 == 4)) = true ∧
    ((runHooks (fun _ => []) 0
      [HookEv.before ⟨0, "C", "M", "t1"⟩, HookEv.after ⟨0, "C", "M", "t1"⟩,
        HookEv.before ⟨1, "D", "M", "t2"⟩, HookEv.after ⟨1, "D", "M", "t2"⟩]
      { initState with reporting_level := 2 }).2.1 = [] ∧
      (runHooks (fun _ => []) 0
        [HookEv.before ⟨0, "C", "M", "t1"⟩, HookEv.after ⟨0, "C", "M", "t1"⟩,
          HookEv.before ⟨1, "D", "M", "t2"⟩, HookEv.after ⟨1, "D", "M", "t2"⟩]
        { initState with reporting_level := 2 }).1.check_for_leaks_before_next_test =
        ({ initState with reporting_level := 2 } : PState).check_for_leaks_before_next_test) :=
  ⟨(hooks_only_finish_class_and_test (fun _ => []) 0
      [HookEv.before ⟨0, "C", "M", "t1"⟩, HookEv.after ⟨0, "C", "M", "t1"⟩,
        HookEv.before ⟨1, "D", "M", "t2"⟩, HookEv.after ⟨1, "D", "M", "t2"⟩]
      { initState with reporting_level := 2 }).1,
   (hooks_only_finish_class_and_test (fun _ => []) 0
      [HookEv.before ⟨0, "C", "M", "t1"⟩, HookEv.after ⟨0, "C", "M", "t1"⟩,
        HookEv.before ⟨1, "D", "M", "t2"⟩, HookEv.after ⟨1, "D", "M", "t2"⟩]
      { initState with reporting_level := 2 }).2 (Or.inr rfl)⟩

/-! Claims about the summary diff. -/

/-- Merging from an empty left side flushes the right side verbatim. -/
lemma summaryMerge_nil_left (rs : List Row) : summaryMerge [] rs = rs := by
  simp [summaryMerge]

/-- Merging into an empty right side flushes the left side negated. -/
lemma summaryMerge_cons_nil (l : Row) (ls : List Row) :
    summaryMerge (l :: ls) [] = (l :: ls).map val_neg := by
  simp [summaryMerge]

/-- One step of the merge loop. -/
lemma summaryMerge_cons_cons (l : Row) (ls : List Row) (r : Row)
    (rs : List Row) :
    summaryMerge (l :: ls) (r :: rs) =
      if l.1 = r.1 then
        (r.1, r.2.1 - l.2.1, r.2.2 - l.2.2) :: summaryMerge ls rs
      else if l.1 < r.1 then val_neg l :: summaryMerge ls (r :: rs)
      else r :: summaryMerge (l :: ls) rs := by
  rw [summaryMerge]

/-- A key smaller than every key of a summary is not found in it. -/
lemma lookupRow_eq_none_of_forall_lt (k : Nat) (xs : List Row)
    (h : ∀ x ∈ xs, k < x.1) : lookupRow k xs = none := by
  induction xs with
  | nil => rfl
  | cons a xs ih =>
    have hne : a.1 ≠ k := by
      have h1 := h a (List.mem_cons_self a xs)
      omega
    simp only [lookupRow, if_neg hne]
    exact ih (fun x hx => h x (List.mem_cons_of_mem a hx))

/-- Looking a key up in a negated summary negates the looked-up value. -/
lemma lookupRow_map_val_neg (k : Nat) (xs : List Row) :
    lookupRow k (xs.map val_neg) =
      (lookupRow k xs).map (fun p => (-p.1, -p.2)) := by
  induction xs with
  | nil => rfl
  | cons a xs ih =>
    by_cases h : a.1 = k
    · simp [lookupRow, val_neg, h]
    · simp [lookupRow, val_neg, h, ih]

/-- Python sorted is the identity on an already strictly sorted summary. -/
lemma sortRows_eq_of_sorted (xs : List Row) (h : sortedKeys xs) :
    sortRows xs = xs := by
  induction xs with
  | nil => rfl
  | cons a xs ih =>
    have h1 : sortedKeys xs := h.of_cons
    have hstep : sortRows (a :: xs) = insort a (sortRows xs) := rfl
    rw [hstep, ih h1]
    cases xs with
    | nil => rfl
    | cons b l =>
      have hab : a.1 < b.1 :=
        (List.pairwise_cons.mp h).1 b (List.mem_cons_self b l)
      simp [insort, le_of_lt hab]

/-- The merge loop realises the per-key delta rule of the spec on strictly
key-sorted inputs. -/
lemma summaryMerge_lookup (xs ys : List Row) :
    sortedKeys xs → sortedKeys ys → ∀ k,
      lookupRow k (summaryMerge xs ys) =
        diffSpec (lookupRow k xs) (lookupRow k ys) := by
  induction xs, ys using summaryMerge.induct with
  | case1 rs =>
    intro _ _ k
    rw [summaryMerge_nil_left]
    cases h : lookupRow k rs <;> simp [diffSpec, lookupRow, h]
  | case2 ls hne =>
    intro _ _ k
    cases ls with
    | nil => exact absurd rfl hne
    | cons l ls =>
      rw [summaryMerge_cons_nil, lookupRow_map_val_neg]
      cases h : lookupRow k (l :: ls) <;> simp [diffSpec, lookupRow, h]
  | case3 l ls r rs heq ih =>
    intro hx hy k
    rw [summaryMerge_cons_cons, if_pos heq]
    by_cases hk : r.1 = k
    · have hlk : l.1 = k := heq.trans hk
      simp [lookupRow, hk, hlk, diffSpec]
    · have hlk : ¬l.1 = k := by rw [heq]; exact hk
      simp [lookupRow, hk, hlk]
      exact ih hx.of_cons hy.of_cons k
  | case4 l ls r rs hne hlt ih =>
    intro hx hy k
    rw [summaryMerge_cons_cons, if_neg hne, if_pos hlt]
    by_cases hk : l.1 = k
    · have hnone : lookupRow k (r :: rs) = none := by
        apply lookupRow_eq_none_of_forall_lt
        intro x hx2
        rcases List.mem_cons.mp hx2 with h1 | h1
        · subst h1
          omega
        · have h2 := (List.pairwise_cons.mp hy).1 x h1
          omega
      rw [hnone]
      simp [lookupRow, val_neg, hk, diffSpec]
    · simp [lookupRow, val_neg, hk]
      exact ih hx.of_cons hy k
  | case5 l ls r rs hne hnlt ih =>
    intro hx hy k
    rw [summaryMerge_cons_cons, if_neg hne, if_neg hnlt]
    by_cases hk : r.1 = k
    · have hnone : lookupRow k (l :: ls) = none := by
        apply lookupRow_eq_none_of_forall_lt
        intro x hx2
        rcases List.mem_cons.mp hx2 with h1 | h1
        · subst h1
          omega
        · have h2 := (List.pairwise_cons.mp hx).1 x h1
          omega
      rw [hnone]
      simp [lookupRow, hk, diffSpec]
    · simp [lookupRow, hk]
      exact ih hx hy.of_cons k

/-- A key is absent from a summary lookup exactly when it is not among the
summary keys. -/
lemma lookupRow_eq_none_iff (k : Nat) (xs : List Row) :
    lookupRow k xs = none ↔ k ∉ xs.map objects_key := by
  induction xs with
  | nil => simp [lookupRow]
  | cons a xs ih =>
    by_cases h : a.1 = k
    · simp [lookupRow, h, objects_key]
    · simp [lookupRow, h, objects_key, ih, Ne.symm h]

/-- The spec delta of two lookups is absent exactly when both are. -/
lemma diffSpec_eq_none_iff (a b : Option (Int × Int)) :
    diffSpec a b = none ↔ a = none ∧ b = none := by
  cases a <;> cases b <;> simp [diffSpec]

/-- C1: on summaries sorted ascending by class key with unique keys, the
summary diff carries exactly the union of the keys of both sides, and the
value found at each key is the per-key delta stated by the spec: both sides
give (R.count − L.count, R.size − L.size), a left-only key gives
(−L.count, −L.size), and a right-only key gives the right row verbatim. -/
theorem summary_diff_matches_spec (L R : List Row)
    (hL : sortedKeys L) (hR : sortedKeys R) (k : Nat) :
    lookupRow k (fast_get_summary_diff L R) =
        diffSpec (lookupRow k L) (lookupRow k R) ∧
      (k ∈ (fast_get_summary_diff L R).map objects_key ↔
        k ∈ L.map objects_key ∨ k ∈ R.map objects_key) := by
  have h1 : lookupRow k (fast_get_summary_diff L R) =
      diffSpec (lookupRow k L) (lookupRow k R) := by
    unfold fast_get_summary_diff
    rw [sortRows_eq_of_sorted L hL, sortRows_eq_of_sorted R hR]
    exact summaryMerge_lookup L R hL hR k
  refine ⟨h1, ?_⟩
  constructor
  · intro hm
    by_contra hno
    push_neg at hno
    have hLn : lookupRow k L = none := (lookupRow_eq_none_iff k L).mpr hno.1
    have hRn : lookupRow k R = none := (lookupRow_eq_none_iff k R).mpr hno.2
    have hnone : lookupRow k (fast_get_summary_diff L R) = none := by
      rw [h1, hLn, hRn]
      rfl
    exact ((lookupRow_eq_none_iff k _).mp hnone) hm
  · intro hor
    by_contra hm
    have hnone : lookupRow k (fast_get_summary_diff L R) = none :=
      (lookupRow_eq_none_iff k _).mpr hm
    rw [h1] at hnone
    obtain ⟨hLn, hRn⟩ := (diffSpec_eq_none_iff _ _).mp hnone
    rcases hor with h | h
    · exact ((lookupRow_eq_none_iff k L).mp hLn) h
    · exact ((lookupRow_eq_none_iff k R).mp hRn) h

/-- C1 witness: the end-to-end scenario of the spec, L = [(A,3,300),(B,1,50)]
and R = [(A,3,300),(C,2,80)] with A, B, C as keys 0, 1, 2, evaluated at the
left-only key B = 1. -/
theorem summary_diff_matches_spec_witness :
    (lookupRow 1 (fast_get_summary_diff
        ([(0, 3, 300), (1, 1, 50)] : List Row)
        ([(0, 3, 300), (2, 2, 80)] : List Row)) =
      diffSpec (lookupRow 1 ([(0, 3, 300), (1, 1, 50)] : List Row))
        (lookupRow 1 ([(0, 3, 300), (2, 2, 80)] : List Row))) ∧
    (1 ∈ (fast_get_summary_diff ([(0, 3, 300), (1, 1, 50)] : List Row)
        ([(0, 3, 300), (2, 2, 80)] : List Row)).map objects_key ↔
      1 ∈ ([(0, 3, 300), (1, 1, 50)] : List Row).map objects_key ∨
        1 ∈ ([(0, 3, 300), (2, 2, 80)] : List Row).map objects_key) :=
  summary_diff_matches_spec ([(0, 3, 300), (1, 1, 50)] : List Row)
    ([(0, 3, 300), (2, 2, 80)] : List Row) (by decide) (by decide) 1

end LeakDet
